import Mathlib

/-!
# Verification of the timeseries-lab linear forecasting core

A shallow embedding, over exact rationals, of the numeric primitives in
`src/lib/utils/math.ts` and of the AR / MA / ARMA / ARIMA forecaster classes
(`src/lib/forecasters/ARForecaster.ts`, `src/lib/forecasters/MAForecaster.ts`,
and the ARMA/ARIMA forecaster sources), together with proofs of the spec's
claims about them.

JavaScript `number[]` values become `List ℚ`; in-place mutation of a class
instance becomes a state-passing function returning the updated state.
Integer-valued orders (`p`, `d`, `q`) are `ℕ`, matching the spec's data model
("non-negative integers"); `inverseDifferenceForecast` keeps an `ℤ` order
because its negative-order error branch is part of the spec.  Functions that
`throw` return `Except`.
-/

/-- JavaScript `arr.slice(-k)`: the last `k` elements, except that `k = 0`
(`slice(-0)` = `slice(0)`) yields the whole array. -/
def jsSliceNeg (l : List ℚ) (k : ℕ) : List ℚ :=
  if k = 0 then l else l.drop (l.length - k)

/-- `mean` from `src/lib/utils/math.ts`: arithmetic mean, `0` on empty input. -/
def mean (data : List ℚ) : ℚ :=
  if data.length = 0 then 0 else data.foldl (· + ·) 0 / data.length

/-- `autocovariance` from `src/lib/utils/math.ts`.  The source returns `0`
when `lag < 0 || lag >= data.length`; with `lag : ℕ` the negative branch is
unrepresentable and the remaining guard is kept.  The accumulation loop
`for i in [0, n-lag)` becomes a finite sum. -/
def autocovariance (data : List ℚ) (lag : ℕ) : ℚ :=
  if lag ≥ data.length then 0
  else
    let m := mean data
    (∑ i ∈ Finset.range (data.length - lag),
      (data.getD i 0 - m) * (data.getD (i + lag) 0 - m)) / data.length

/-- `predictAR` from `src/lib/utils/math.ts`: returns `0` on a length
mismatch, otherwise the loop `prediction += coefficients[i] * history[p-1-i]`. -/
def predictAR (history coefficients : List ℚ) : ℚ :=
  if history.length ≠ coefficients.length then 0
  else
    ∑ i ∈ Finset.range coefficients.length,
      coefficients.getD i 0 * history.getD (coefficients.length - 1 - i) 0

/-- `predictMA` from `src/lib/utils/math.ts`: returns `0` when fewer errors
than coefficients, otherwise the loop `prediction += coefficients[i] * errors[i]`. -/
def predictMA (errors coefficients : List ℚ) : ℚ :=
  if errors.length < coefficients.length then 0
  else
    ∑ i ∈ Finset.range coefficients.length,
      coefficients.getD i 0 * errors.getD i 0

/-- One first-differencing pass: the inner loop of `difference`
(`differencedOnce.push(currentData[j] - currentData[j-1])` for `j = 1..len-1`). -/
def diff1 : List ℚ → List ℚ
  | [] => []
  | [_] => []
  | a :: b :: rest => (b - a) :: diff1 (b :: rest)

/-- The `for i in [0,d)` loop of `difference`.  The source's early return of
`[]` when an intermediate result is empty coincides with continuing, since
one pass over an empty list is empty. -/
def diffLoop : List ℚ → ℕ → List ℚ
  | l, 0 => l
  | l, d + 1 => diffLoop (diff1 l) d

/-- `difference` from `src/lib/utils/math.ts`.  With `d : ℕ` the source's
`d < 0` throw is unrepresentable; `d = 0` copies, `len ≤ d` yields `[]`. -/
def difference (data : List ℚ) (d : ℕ) : List ℚ :=
  if d = 0 then data
  else if data.length ≤ d then []
  else diffLoop data d

/-- The multiplicative loop of `combinations`:
`res = res * (n - i + 1) / i` for `i = 1..k` (exact in ℚ). -/
def combProd (n : ℕ) (k : ℕ) : ℚ :=
  (List.range k).foldl
    (fun (res : ℚ) (i : ℕ) => res * ((n : ℚ) - ((i : ℚ) + 1) + 1) / ((i : ℚ) + 1)) 1

/-- `combinations` from `src/lib/utils/math.ts` (nCr).  The source's `k < 0`
branch is unrepresentable with `k : ℕ`; the `k > n/2` symmetry test uses real
division in the source, i.e. `2k > n`. -/
def combinations (n k : ℕ) : ℚ :=
  if k > n then 0
  else if k = 0 ∨ k = n then 1
  else combProd n (if 2 * k > n then n - k else k)

/-- The two `throw new Error(...)` conditions of `inverseDifferenceForecast`. -/
inductive DiffError where
  | invalidOrder
  | insufficientHistory
deriving DecidableEq, Repr

/-- `inverseDifferenceForecast` from `src/lib/utils/math.ts`: guards in source
order (`d = 0` identity, `d < 0` throw, short tail throw), then the `d = 1`
and `d = 2` special cases, then the general signed-binomial loop
`for k = 1..d`, adding the term for odd `k` and subtracting for even `k`. -/
def inverseDifferenceForecast (forecastOfDifferencedSeries : ℚ)
    (originalSeriesTail : List ℚ) (d : ℤ) : Except DiffError ℚ :=
  if d = 0 then .ok forecastOfDifferencedSeries
  else if d < 0 then .error .invalidOrder
  else if (originalSeriesTail.length : ℤ) < d then .error .insufficientHistory
  else
    let len := originalSeriesTail.length
    if d = 1 then
      .ok (forecastOfDifferencedSeries + originalSeriesTail.getD (len - 1) 0)
    else if d = 2 then
      .ok (forecastOfDifferencedSeries
        + 2 * originalSeriesTail.getD (len - 1) 0
        - originalSeriesTail.getD (len - 2) 0)
    else
      .ok (forecastOfDifferencedSeries
        + ∑ k ∈ Finset.range d.toNat,
            (if (k + 1) % 2 = 1 then (1 : ℚ) else -1)
              * combinations d.toNat (k + 1)
              * originalSeriesTail.getD (len - (k + 1)) 0)

/-- `estimateMACoefficients` from `src/lib/utils/math.ts`: a fixed placeholder
vector of `0.1` entries of length `q` (the source's optional `errors`
parameter is unused by its body and is omitted here). -/
def estimateMACoefficients (_data : List ℚ) (q : ℕ) : List ℚ :=
  if q = 0 then [] else List.replicate q 0.1

/-- Gaussian elimination with partial pivoting on the augmented matrix
`[R | r]`, the `p > 2` branch of `estimateARCoefficients`.  On a zero pivot
the source returns `p` zeros. -/
def gaussSolveYW (R : List (List ℚ)) (r : List ℚ) (p : ℕ) : List ℚ := Id.run do
  let mut M : Array (Array ℚ) :=
    (List.range p).foldl
      (fun acc i => acc.push (((R.getD i []).toArray).push (r.getD i 0))) #[]
  for i in [0:p] do
    -- find pivot
    let mut maxRow := i
    for k in [i+1:p] do
      if |((M.getD k #[]).getD i 0)| > |((M.getD maxRow #[]).getD i 0)| then
        maxRow := k
    let rowI := M.getD i #[]
    let rowMax := M.getD maxRow #[]
    M := (M.set! i rowMax).set! maxRow rowI
    -- make pivot 1
    let pivot := (M.getD i #[]).getD i 0
    if pivot = 0 then
      return List.replicate p 0
    let mut prow := M.getD i #[]
    for j in [i:p+1] do
      prow := prow.set! j (prow.getD j 0 / pivot)
    M := M.set! i prow
    -- eliminate other rows
    for k in [0:p] do
      if k ≠ i then
        let factor := (M.getD k #[]).getD i 0
        let rowPivot := M.getD i #[]
        let mut rowK := M.getD k #[]
        for j in [i:p+1] do
          rowK := rowK.set! j (rowK.getD j 0 - factor * rowPivot.getD j 0)
        M := M.set! k rowK
  return (List.range p).map (fun k => (M.getD k #[]).getD p 0)

/-- `estimateARCoefficients` from `src/lib/utils/math.ts`: Yule-Walker matrix
`R[i][j] = autocovariance(data, |i-j|)` and target `r[i] = autocovariance(data, i+1)`,
with closed forms for `p = 1`, `p = 2` and Gaussian elimination beyond. -/
def estimateARCoefficients (data : List ℚ) (p : ℕ) : List ℚ :=
  if p = 0 then []
  else if data.length ≤ p then List.replicate p 0
  else
    let R : List (List ℚ) :=
      (List.range p).map (fun i =>
        (List.range p).map (fun j => autocovariance data ((i : ℤ) - j).natAbs))
    let r : List ℚ := (List.range p).map (fun i => autocovariance data (i + 1))
    if p = 1 then
      if (R.getD 0 []).getD 0 0 = 0 then [0]
      else [r.getD 0 0 / (R.getD 0 []).getD 0 0]
    else if p = 2 then
      let det := (R.getD 0 []).getD 0 0 * (R.getD 1 []).getD 1 0
        - (R.getD 0 []).getD 1 0 * (R.getD 1 []).getD 0 0
      if det = 0 then [0, 0]
      else
        let phi1 := (r.getD 0 0 * (R.getD 1 []).getD 1 0
          - r.getD 1 0 * (R.getD 0 []).getD 1 0) / det
        let phi2 := (r.getD 1 0 * (R.getD 0 []).getD 0 0
          - r.getD 0 0 * (R.getD 1 []).getD 0 0) / det
        [phi1, phi2]
    else gaussSolveYW R r p

/-- `estimateARMACoefficients` from `src/lib/utils/math.ts`: AR estimate, then
the placeholder MA estimate over AR residuals (`data.map((val, idx) => ...)`
followed by `.slice(p)`; the per-index history slice is reversed before
`predictAR`, as in the source). -/
def estimateARMACoefficients (data : List ℚ) (p q : ℕ) : List ℚ × List ℚ :=
  let arCoefficients := if p > 0 then estimateARCoefficients data p else []
  let residuals :=
    if p > 0 ∧ arCoefficients.length = p then
      ((data.enum).map (fun pr =>
        if pr.1 < p then (0 : ℚ)
        else pr.2 - predictAR (((data.drop (pr.1 - p)).take p).reverse) arCoefficients)).drop p
    else data
  let maCoefficients := if q > 0 then estimateMACoefficients residuals q else []
  (arCoefficients, maCoefficients)

/-! ## Data model: TimePoint / TimeSeries -/

/-- `TimePoint` from the shared types: one `{t, x}` observation. -/
structure TimePoint where
  t : ℚ
  x : ℚ
deriving DecidableEq, Repr

/-- `TimeSeries`: the ordered observation list.  The `timeUnit` /
`tickDuration` tags are semantic-only (never read by the forecasters'
numeric paths) and are omitted. -/
structure TimeSeries where
  data : List TimePoint
deriving DecidableEq, Repr

/-- The raw value sequence of a series (`data.map(dp => dp.x)`). -/
def TimeSeries.xs (ts : TimeSeries) : List ℚ :=
  ts.data.map (·.x)

/-! ## MAForecaster (src/lib/forecasters/MAForecaster.ts) -/

/-- `MAParams` after the constructor's defaulting (`q: params.q ?? 1`);
`coefficients` / `errors` stay optional exactly as in the source. -/
structure MAParams where
  q : ℕ
  coefficients : Option (List ℚ)
  errors : Option (List ℚ)
deriving DecidableEq, Repr

/-- A `Partial<MAParams>` constructor / updateParams argument. -/
structure MAParamsIn where
  q : Option ℕ := none
  coefficients : Option (List ℚ) := none
  errors : Option (List ℚ) := none
deriving DecidableEq, Repr

/-- The mutable fields of an `MAForecaster` instance (`meanLog` omitted:
write-only diagnostics). -/
structure MAState where
  params : MAParams
  timeSeries : TimeSeries
  coefficients : List ℚ
  errors : List ℚ
  seriesMean : ℚ
deriving DecidableEq, Repr

/-- `MAForecaster.initialize`: recompute the mean, fill in coefficients when
none were supplied (placeholder estimation or default `0.1`s), left-pad the
error history with zeros up to length `q` (no truncation). -/
def maInitialize (s : MAState) : MAState :=
  let sm := mean s.timeSeries.xs
  let centeredSeries := s.timeSeries.data.map (fun dp => dp.x - sm)
  let coefficients :=
    if s.params.coefficients = none ∧ s.params.q > 0 ∧ centeredSeries.length > s.params.q then
      estimateMACoefficients centeredSeries s.params.q
    else if s.params.coefficients = none ∧ s.params.q > 0 then
      List.replicate s.params.q 0.1
    else s.coefficients
  let errors :=
    if s.errors.length < s.params.q then
      List.replicate (s.params.q - s.errors.length) 0 ++ s.errors
    else s.errors
  { s with seriesMean := sm, coefficients := coefficients, errors := errors }

/-- The `MAForecaster` constructor: default `q = 1`, adopt supplied
coefficients/errors, then `initialize()` iff the series is non-empty. -/
def maNew (timeSeries : TimeSeries) (pin : MAParamsIn) : MAState :=
  let params : MAParams :=
    { q := pin.q.getD 1, coefficients := pin.coefficients, errors := pin.errors }
  let s : MAState :=
    { params := params, timeSeries := timeSeries
      coefficients := params.coefficients.getD []
      errors := params.errors.getD [], seriesMean := 0 }
  if timeSeries.data.length > 0 then maInitialize s else s

/-- `MAForecaster.calculateForecastForErrorUpdate`: one-step MA forecast from
the last `q` stored errors (most-recent-first), `0` without an MA component
or with too few errors. -/
def maCalculateForecastForErrorUpdate (s : MAState) : ℚ :=
  if s.coefficients.length = 0 ∨ s.params.q = 0 then 0
  else if s.errors.length < s.params.q then 0
  else predictMA ((jsSliceNeg s.errors s.params.q).reverse) s.coefficients

/-- `MAForecaster.updateAndGetPastErrors`: with a new data point, push the new
residual and evict the oldest once past length `q` (only when `q > 0`);
always return a zero-left-padded copy of the last `q` errors reversed to
most-recent-first.  Returns the updated state and that list. -/
def maUpdateAndGetPastErrors (s : MAState) (newDataPoint : Option ℚ) :
    MAState × List ℚ :=
  let s :=
    match newDataPoint with
    | some v =>
      if s.timeSeries.data.length > 0 then
        let lastForecast := maCalculateForecastForErrorUpdate s
        let newError := (v - s.seriesMean) - lastForecast
        let errs := s.errors ++ [newError]
        let errs :=
          if errs.length > s.params.q ∧ s.params.q > 0 then errs.tail else errs
        { s with errors := errs }
      else s
    | none => s
  let padded := List.replicate (s.params.q - s.errors.length) 0 ++ s.errors
  (s, (jsSliceNeg padded s.params.q).reverse)

/-- `MAForecaster.updateTimeSeries`: adopt the series, recompute the mean;
replay the error update once per newly appended point, else re-initialize
when the shape drifted. -/
def maUpdateTimeSeries (s : MAState) (timeSeries : TimeSeries) : MAState :=
  let oldLength := s.timeSeries.data.length
  let s := { s with timeSeries := timeSeries, seriesMean := mean timeSeries.xs }
  if timeSeries.data.length > oldLength ∧ oldLength > 0 then
    (List.range (timeSeries.data.length - oldLength)).foldl
      (fun s i =>
        (maUpdateAndGetPastErrors s
          (some ((timeSeries.data.getD (oldLength + i) ⟨0, 0⟩).x))).1)
      s
  else if timeSeries.data.length > 0
      ∧ (s.coefficients.length ≠ s.params.q ∨ s.errors.length < s.params.q) then
    maInitialize s
  else s

/-- The forecast loop body of `MAForecaster.forecast`: emit
`predictMA + mean`, then slide the simulated error window
(`pop()` the oldest, `unshift(0)` an assumed-zero future error). -/
def maForecastLoop (errors coefficients : List ℚ) (sm : ℚ) : ℕ → List ℚ
  | 0 => []
  | h + 1 =>
    (predictMA errors coefficients + sm)
      :: maForecastLoop (0 :: errors.dropLast) coefficients sm h

/-- `MAForecaster.forecast`: mean-fill for `q = 0` or an unrepairable
coefficient mismatch; on a mismatch with no pinned coefficients it first
re-runs `initialize()` (a state write).  Returns the (possibly re-initialized)
state and the forecasts. -/
def maForecast (s : MAState) (_t : ℚ) (horizon : ℕ) : MAState × List ℚ :=
  if s.params.q = 0 then (s, List.replicate horizon s.seriesMean)
  else
    let s :=
      if s.coefficients.length ≠ s.params.q ∧ s.params.coefficients = none then
        maInitialize s
      else s
    if s.coefficients.length ≠ s.params.q then
      (s, List.replicate horizon s.seriesMean)
    else
      let (s, currentErrors) := maUpdateAndGetPastErrors s none
      (s, maForecastLoop currentErrors s.coefficients s.seriesMean horizon)

/-- `MAForecaster.updateParams`: a `q` change re-adopts params and
re-initializes; otherwise coefficients/errors are applied in place, errors
padded/truncated to length `q` (cleared when `q = 0`). -/
def maUpdateParams (s : MAState) (np : MAParamsIn) : MAState :=
  let oldQ := s.params.q
  let params : MAParams :=
    { q := np.q.getD s.params.q
      coefficients := np.coefficients.orElse (fun _ => s.params.coefficients)
      errors := np.errors.orElse (fun _ => s.params.errors) }
  let s := { s with params := params }
  if np.q.isSome ∧ np.q ≠ some oldQ then
    maInitialize { s with
      coefficients := params.coefficients.getD []
      errors := params.errors.getD [] }
  else
    let s :=
      match np.coefficients with
      | some c => { s with coefficients := c }
      | none => s
    match np.errors with
    | some e =>
      if s.params.q = 0 then { s with errors := [] }
      else
        let e := List.replicate (s.params.q - e.length) 0 ++ e
        let e := if e.length > s.params.q then e.drop (e.length - s.params.q) else e
        { s with errors := e }
    | none =>
      if np.q.isSome ∧ np.q.getD 0 = 0 then { s with errors := [] } else s

/-! ## ARForecaster (src/lib/forecasters/ARForecaster.ts) -/

/-- `ARParams` after constructor defaulting (`p: params.p ?? 1`). -/
structure ARParams where
  p : ℕ
  coefficients : Option (List ℚ)
deriving DecidableEq, Repr

/-- A `Partial<ARParams>` argument. -/
structure ARParamsIn where
  p : Option ℕ := none
  coefficients : Option (List ℚ) := none
deriving DecidableEq, Repr

/-- The mutable fields of an `ARForecaster` instance. -/
structure ARState where
  params : ARParams
  timeSeries : TimeSeries
  coefficients : List ℚ
deriving DecidableEq, Repr

/-- `ARForecaster.estimateCoefficients`: zeros when the series is too short,
otherwise the Yule-Walker estimate over the raw values. -/
def arEstimateCoefficients (s : ARState) : ARState :=
  if s.timeSeries.data.length ≤ s.params.p then
    { s with coefficients := List.replicate s.params.p 0 }
  else
    { s with coefficients := estimateARCoefficients s.timeSeries.xs s.params.p }

/-- The `ARForecaster` constructor: default `p = 1`; estimate coefficients
iff none were supplied and the series is long enough. -/
def arNew (timeSeries : TimeSeries) (pin : ARParamsIn) : ARState :=
  let params : ARParams := { p := pin.p.getD 1, coefficients := pin.coefficients }
  let s : ARState :=
    { params := params, timeSeries := timeSeries
      coefficients := params.coefficients.getD [] }
  if timeSeries.data.length > params.p ∧ params.coefficients = none then
    arEstimateCoefficients s
  else s

/-- `ARForecaster.updateTimeSeries`: adopt the series and re-estimate (or
zero-fill) when no explicit coefficients are pinned. -/
def arUpdateTimeSeries (s : ARState) (timeSeries : TimeSeries) : ARState :=
  let s := { s with timeSeries := timeSeries }
  if timeSeries.data.length > s.params.p ∧ s.params.coefficients = none then
    arEstimateCoefficients s
  else if timeSeries.data.length ≤ s.params.p ∧ s.params.coefficients = none then
    { s with coefficients := List.replicate s.params.p 0 }
  else s

/-- The recursive forecast loop of `ARForecaster.forecast`: predict, then
`shift()` the oldest history value and `push()` the prediction. -/
def arForecastLoop (history coefficients : List ℚ) : ℕ → List ℚ
  | 0 => []
  | h + 1 =>
    let nextForecast := predictAR history coefficients
    nextForecast :: arForecastLoop (history.tail ++ [nextForecast]) coefficients h

/-- `ARForecaster.forecast`: zero-fill when the series is shorter than `p` or
the coefficient length is wrong after one repair attempt; the repair attempt
(`estimateCoefficients()` when nothing is pinned) is a state write. -/
def arForecast (s : ARState) (_t : ℚ) (horizon : ℕ) : ARState × List ℚ :=
  if s.timeSeries.data.length < s.params.p then
    (s, List.replicate horizon 0)
  else
    let s :=
      if s.coefficients.length ≠ s.params.p ∧ s.params.coefficients = none then
        arEstimateCoefficients s
      else s
    if s.coefficients.length ≠ s.params.p then
      (s, List.replicate horizon 0)
    else
      (s, arForecastLoop (jsSliceNeg s.timeSeries.xs s.params.p) s.coefficients horizon)

/-! ## ARMAForecaster -/

/-- `ARMAParams` after constructor defaulting (`p ?? 0`, `q ?? 0`). -/
structure ARMAParams where
  p : ℕ
  q : ℕ
  coefficients : Option (List ℚ)
  arCoefficients : Option (List ℚ)
  maCoefficients : Option (List ℚ)
  errors : Option (List ℚ)
deriving DecidableEq, Repr

/-- A `Partial<ARMAParams>` argument. -/
structure ARMAParamsIn where
  p : Option ℕ := none
  q : Option ℕ := none
  coefficients : Option (List ℚ) := none
  arCoefficients : Option (List ℚ) := none
  maCoefficients : Option (List ℚ) := none
  errors : Option (List ℚ) := none
deriving DecidableEq, Repr

/-- The mutable fields of an `ARMAForecaster` instance. -/
structure ARMAState where
  params : ARMAParams
  timeSeries : TimeSeries
  arCoefficients : List ℚ
  maCoefficients : List ℚ
  errors : List ℚ
  seriesMean : ℚ
deriving DecidableEq, Repr

/-- `ARMAForecaster.estimateLocalCoefficients`: defaults on an empty series,
otherwise the placeholder combined estimate, each part taken when unpinned or
of the wrong length, then final length repairs. -/
def armaEstimateLocalCoefficients (s : ARMAState) (centeredSeries : List ℚ) :
    ARMAState :=
  if centeredSeries.length = 0 then
    let s :=
      if s.params.p > 0 then { s with arCoefficients := List.replicate s.params.p 0 }
      else s
    if s.params.q > 0 then { s with maCoefficients := List.replicate s.params.q 0.1 }
    else s
  else
    let est := estimateARMACoefficients centeredSeries s.params.p s.params.q
    let s :=
      if s.params.arCoefficients = none ∧ s.params.p > 0 then
        { s with arCoefficients := est.1 }
      else if s.params.p > 0 ∧ s.arCoefficients.length ≠ s.params.p then
        { s with arCoefficients := est.1 }
      else s
    let s :=
      if s.params.maCoefficients = none ∧ s.params.q > 0 then
        { s with maCoefficients := est.2 }
      else if s.params.q > 0 ∧ s.maCoefficients.length ≠ s.params.q then
        { s with maCoefficients := est.2 }
      else s
    let s :=
      if s.params.p > 0 ∧ s.arCoefficients.length ≠ s.params.p then
        { s with arCoefficients := List.replicate s.params.p 0 }
      else s
    if s.params.q > 0 ∧ s.maCoefficients.length ≠ s.params.q then
      { s with maCoefficients := List.replicate s.params.q 0.1 }
    else s

/-- The error-history sizing tail of `ARMAForecaster.initialize`: left-pad
with zeros up to length `q`, then truncate to the last `q` (cleared at
`q = 0`). -/
def armaFixErrors (s : ARMAState) : ARMAState :=
  let s :=
    if s.errors.length < s.params.q ∧ s.params.q > 0 then
      { s with errors := List.replicate (s.params.q - s.errors.length) 0 ++ s.errors }
    else s
  if s.errors.length > s.params.q ∧ s.params.q > 0 then
    { s with errors := s.errors.drop (s.errors.length - s.params.q) }
  else if s.params.q = 0 then { s with errors := [] }
  else s

/-- `ARMAForecaster.initialize`: recompute the mean; adopt pinned AR+MA
coefficients, else split a combined vector, else estimate; then size the
error history to exactly `q`. -/
def armaInitialize (s : ARMAState) : ARMAState :=
  let sm := mean s.timeSeries.xs
  let centeredSeries := s.timeSeries.data.map (fun dp => dp.x - sm)
  let s := { s with seriesMean := sm }
  let s : ARMAState :=
    match s.params.arCoefficients, s.params.maCoefficients with
    | some arC, some maC => { s with arCoefficients := arC, maCoefficients := maC }
    | _, _ =>
      match s.params.coefficients with
      | some cs =>
        if cs.length ≥ s.params.p + s.params.q then
          { s with arCoefficients := cs.take s.params.p
                   maCoefficients := (cs.drop s.params.p).take s.params.q }
        else armaEstimateLocalCoefficients s centeredSeries
      | none => armaEstimateLocalCoefficients s centeredSeries
  armaFixErrors s

/-- The `ARMAForecaster` constructor: defaults `p = q = 0`, adopt supplied
coefficient/error arrays, `initialize()` iff the series is non-empty. -/
def armaNew (timeSeries : TimeSeries) (pin : ARMAParamsIn) : ARMAState :=
  let params : ARMAParams :=
    { p := pin.p.getD 0, q := pin.q.getD 0
      coefficients := pin.coefficients
      arCoefficients := pin.arCoefficients
      maCoefficients := pin.maCoefficients
      errors := pin.errors }
  let s : ARMAState :=
    { params := params, timeSeries := timeSeries
      arCoefficients := params.arCoefficients.getD []
      maCoefficients := params.maCoefficients.getD []
      errors := params.errors.getD [], seriesMean := 0 }
  if timeSeries.data.length > 0 then armaInitialize s else s

/-- `ARMAForecaster.calculateSingleStepForecast`: AR part over the last `p`
history values plus MA part over most-recent-first errors, each zero when its
order is zero or shapes disagree. -/
def armaCalculateSingleStepForecast (s : ARMAState)
    (history currentMAErrors : List ℚ) : ℚ :=
  let arPart :=
    if s.params.p > 0 ∧ s.arCoefficients.length = s.params.p
        ∧ history.length ≥ s.params.p then
      predictAR (jsSliceNeg history s.params.p) s.arCoefficients
    else 0
  let maPart :=
    if s.params.q > 0 ∧ s.maCoefficients.length = s.params.q
        ∧ currentMAErrors.length ≥ s.params.q then
      predictMA currentMAErrors s.maCoefficients
    else 0
  arPart + maPart

/-- The per-new-point error replay of `ARMAForecaster.updateTimeSeries`:
residual = centered value minus single-step forecast (the raw centered value
when fewer than `p` points precede it); push and evict beyond length `q`. -/
def armaAbsorbNewPoint (centeredSeries : List ℚ) (s : ARMAState)
    (pointIndex : ℕ) : ARMAState :=
  if pointIndex < s.params.p then
    let errs := s.errors ++ [centeredSeries.getD pointIndex 0]
    let errs := if errs.length > s.params.q then errs.tail else errs
    { s with errors := errs }
  else
    let historyForAR := (centeredSeries.drop (pointIndex - s.params.p)).take s.params.p
    let currentMAErrors := (jsSliceNeg s.errors s.params.q).reverse
    let forecastForErrorCalc :=
      armaCalculateSingleStepForecast s historyForAR currentMAErrors
    let newError := centeredSeries.getD pointIndex 0 - forecastForErrorCalc
    let errs := s.errors ++ [newError]
    let errs := if errs.length > s.params.q then errs.tail else errs
    { s with errors := errs }

/-- `ARMAForecaster.updateTimeSeries`: reset on an empty series; replay the
error update per appended point when `q > 0`; re-initialize on shape drift;
else pad a short error history. -/
def armaUpdateTimeSeries (s : ARMAState) (timeSeries : TimeSeries) : ARMAState :=
  let oldLength := s.timeSeries.data.length
  let s := { s with timeSeries := timeSeries }
  if timeSeries.data.length = 0 then
    { s with seriesMean := 0, errors := List.replicate s.params.q 0 }
  else
    let sm := mean timeSeries.xs
    let s := { s with seriesMean := sm }
    let centeredSeries := timeSeries.data.map (fun dp => dp.x - sm)
    if timeSeries.data.length > oldLength ∧ oldLength > 0 ∧ s.params.q > 0 then
      (List.range (timeSeries.data.length - oldLength)).foldl
        (fun s i => armaAbsorbNewPoint centeredSeries s (oldLength + i)) s
    else if timeSeries.data.length > 0
        ∧ (s.arCoefficients.length ≠ s.params.p ∨ s.maCoefficients.length ≠ s.params.q)
        ∧ (s.params.arCoefficients = none ∨ s.params.maCoefficients = none) then
      armaInitialize s
    else if s.params.q > 0 ∧ s.errors.length < s.params.q then
      { s with errors := List.replicate (s.params.q - s.errors.length) 0 ++ s.errors }
    else s

/-- The forecast loop of `ARMAForecaster.forecast`: sum the AR part over the
rolling centered history and the MA part over the rolling error window, emit
plus the mean, then slide both windows (the AR window absorbs the centered
forecast, the error window an assumed-zero future error). -/
def armaForecastLoop (p q : ℕ) (arC maC : List ℚ) (sm : ℚ)
    (history errs : List ℚ) : ℕ → List ℚ
  | 0 => []
  | h + 1 =>
    let arPart := if p > 0 then predictAR history arC else 0
    let maPart := if q > 0 then predictMA errs maC else 0
    let forecastValue := arPart + maPart
    (forecastValue + sm)
      :: armaForecastLoop p q arC maC sm
          (if p > 0 then history.tail ++ [forecastValue] else history)
          (if q > 0 then 0 :: errs.dropLast else errs)
          h

/-- `ARMAForecaster.forecast`: zero-fill on an empty series with p or q
positive; mean-fill for `p = q = 0`; coefficient-shape repairs re-run
`initialize()` (a state write) and fall back to mean-fill when still wrong;
otherwise run the simulation loop on zero-padded local windows. -/
def armaForecast (s : ARMAState) (_t : ℚ) (horizon : ℕ) : ARMAState × List ℚ :=
  if s.timeSeries.data.length = 0 ∧ (s.params.p > 0 ∨ s.params.q > 0) then
    (s, List.replicate horizon 0)
  else if s.params.p = 0 ∧ s.params.q = 0 then
    (s, List.replicate horizon s.seriesMean)
  else
    let s :=
      if s.params.p > 0 ∧ s.arCoefficients.length ≠ s.params.p then armaInitialize s
      else s
    if s.params.p > 0 ∧ s.arCoefficients.length ≠ s.params.p then
      (s, List.replicate horizon s.seriesMean)
    else
      let s :=
        if s.params.q > 0 ∧ s.maCoefficients.length ≠ s.params.q then armaInitialize s
        else s
      if s.params.q > 0 ∧ s.maCoefficients.length ≠ s.params.q then
        (s, List.replicate horizon s.seriesMean)
      else
        let centeredSeries := s.timeSeries.data.map (fun dp => dp.x - s.seriesMean)
        let currentHistory := jsSliceNeg centeredSeries s.params.p
        let currentHistory :=
          if s.params.p > 0 then
            List.replicate (s.params.p - currentHistory.length) 0 ++ currentHistory
          else currentHistory
        let currentMAErrors := (jsSliceNeg s.errors s.params.q).reverse
        let currentMAErrors :=
          if s.params.q > 0 then
            currentMAErrors ++ List.replicate (s.params.q - currentMAErrors.length) 0
          else currentMAErrors
        (s, armaForecastLoop s.params.p s.params.q s.arCoefficients s.maCoefficients
              s.seriesMean currentHistory currentMAErrors horizon)

/-- `ARMAForecaster.updateParams`: order or coefficient changes re-adopt the
merged params and re-initialize (defaults without data); an errors-only
change pads/truncates in place. -/
def armaUpdateParams (s : ARMAState) (np : ARMAParamsIn) : ARMAState :=
  let oldP := s.params.p
  let oldQ := s.params.q
  let params : ARMAParams :=
    { p := np.p.getD s.params.p, q := np.q.getD s.params.q
      coefficients := np.coefficients.orElse (fun _ => s.params.coefficients)
      arCoefficients := np.arCoefficients.orElse (fun _ => s.params.arCoefficients)
      maCoefficients := np.maCoefficients.orElse (fun _ => s.params.maCoefficients)
      errors := np.errors.orElse (fun _ => s.params.errors) }
  let s := { s with params := params }
  if (np.p.isSome ∧ np.p ≠ some oldP) ∨ (np.q.isSome ∧ np.q ≠ some oldQ)
      ∨ np.arCoefficients.isSome ∨ np.maCoefficients.isSome ∨ np.coefficients.isSome then
    let s := { s with
      arCoefficients := params.arCoefficients.getD []
      maCoefficients := params.maCoefficients.getD []
      errors := params.errors.getD s.errors }
    if s.timeSeries.data.length > 0 then armaInitialize s
    else
      let s :=
        if s.params.p > 0 ∧ s.arCoefficients.length ≠ s.params.p then
          { s with arCoefficients := List.replicate s.params.p 0 }
        else s
      let s :=
        if s.params.q > 0 ∧ s.maCoefficients.length ≠ s.params.q then
          { s with maCoefficients := List.replicate s.params.q 0.1 }
        else s
      { s with errors := List.replicate s.params.q 0 }
  else
    match np.errors with
    | some e =>
      let e := if s.params.q > 0 then List.replicate (s.params.q - e.length) 0 ++ e else e
      let e :=
        if s.params.q > 0 ∧ e.length > s.params.q then e.drop (e.length - s.params.q)
        else if s.params.q = 0 then []
        else e
      { s with errors := e }
    | none => s

/-! ## ARIMAForecaster -/

/-- `ARIMAParams` after constructor defaulting (`p ?? 0`, `d ?? 0`, `q ?? 0`). -/
structure ARIMAParams where
  p : ℕ
  d : ℕ
  q : ℕ
  arCoefficients : Option (List ℚ)
  maCoefficients : Option (List ℚ)
  errors : Option (List ℚ)
deriving DecidableEq, Repr

/-- A `Partial<ARIMAParams>` argument. -/
structure ARIMAParamsIn where
  p : Option ℕ := none
  d : Option ℕ := none
  q : Option ℕ := none
  arCoefficients : Option (List ℚ) := none
  maCoefficients : Option (List ℚ) := none
  errors : Option (List ℚ) := none
deriving DecidableEq, Repr

/-- The mutable fields of an `ARIMAForecaster` instance (`armaForecaster` and
`differencedTimeSeries` start as `null`). -/
structure ARIMAState where
  params : ARIMAParams
  timeSeries : TimeSeries
  armaForecaster : Option ARMAState
  differencedTimeSeries : Option TimeSeries
  originalSeriesTail : List (List ℚ)
deriving DecidableEq, Repr

/-- The ARMA-parameter block ARIMA forwards to its sub-model. -/
def ARIMAParams.toArmaIn (pa : ARIMAParams) : ARMAParamsIn :=
  { p := some pa.p, q := some pa.q
    arCoefficients := pa.arCoefficients, maCoefficients := pa.maCoefficients
    errors := pa.errors }

/-- `ARIMAForecaster.initializeOrUpdateArma`: guard empty/short series,
capture the last `d` raw values as the reconstruction tail, difference the
series (time-aligned to raw index `idx + d`), then construct, update or drop
the inner ARMA model according to the differenced length. -/
def arimaInitializeOrUpdateArma (s : ARIMAState) : ARIMAState :=
  if s.timeSeries.data.length = 0 ∧ s.params.d > 0 then
    { s with differencedTimeSeries := some ⟨[]⟩, armaForecaster := none }
  else
    let currentSeriesData := s.timeSeries.xs
    let s := { s with originalSeriesTail := [] }
    let shortAfterDiff : Bool :=
      s.params.d > 0 ∧ s.timeSeries.data.length ≤ s.params.d
    if shortAfterDiff then
      { s with differencedTimeSeries := some ⟨[]⟩, armaForecaster := none }
    else
      let s :=
        if s.params.d > 0 then
          let tails := [jsSliceNeg currentSeriesData s.params.d]
          let differencedValues := difference currentSeriesData s.params.d
          let diffTS : TimeSeries :=
            ⟨(differencedValues.enum).map (fun pr =>
              ⟨(s.timeSeries.data.getD (pr.1 + s.params.d) ⟨0, 0⟩).t, pr.2⟩)⟩
          { s with originalSeriesTail := tails, differencedTimeSeries := some diffTS }
        else
          { s with differencedTimeSeries := some s.timeSeries }
      match s.differencedTimeSeries with
      | some diffTS =>
        if diffTS.data.length > max s.params.p s.params.q then
          match s.armaForecaster with
          | some arma =>
            let arma := armaUpdateTimeSeries arma diffTS
            let arma := armaUpdateParams arma s.params.toArmaIn
            { s with armaForecaster := some arma }
          | none =>
            { s with armaForecaster := some (armaNew diffTS s.params.toArmaIn) }
        else if diffTS.data.length > 0 then
          { s with armaForecaster := some (armaNew diffTS s.params.toArmaIn) }
        else
          { s with armaForecaster := none }
      | none => { s with armaForecaster := none }

/-- The `ARIMAForecaster` constructor: defaults `p = d = q = 0`, then
`initializeOrUpdateArma()`. -/
def arimaNew (timeSeries : TimeSeries) (pin : ARIMAParamsIn) : ARIMAState :=
  let params : ARIMAParams :=
    { p := pin.p.getD 0, d := pin.d.getD 0, q := pin.q.getD 0
      arCoefficients := pin.arCoefficients, maCoefficients := pin.maCoefficients
      errors := pin.errors }
  arimaInitializeOrUpdateArma
    { params := params, timeSeries := timeSeries
      armaForecaster := none, differencedTimeSeries := none
      originalSeriesTail := [] }

/-- `ARIMAForecaster.updateTimeSeries`: adopt the series and re-derive
everything. -/
def arimaUpdateTimeSeries (s : ARIMAState) (timeSeries : TimeSeries) : ARIMAState :=
  arimaInitializeOrUpdateArma { s with timeSeries := timeSeries }

/-- The `while (tail.length < d)` padding loop of `ARIMAForecaster.forecast`:
prepend, preferring the raw value at index `len - 1 - tail.length`, else the
last known raw value; `k` counts the missing entries. -/
def arimaPadTail (ts : TimeSeries) (lastKnown : ℚ) : ℕ → List ℚ → List ℚ
  | 0, tail => tail
  | k + 1, tail =>
    let v :=
      if ts.data.length > tail.length then
        (ts.data.getD (ts.data.length - 1 - tail.length) ⟨0, 0⟩).x
      else lastKnown
    arimaPadTail ts lastKnown k (v :: tail)

/-- The reconstruction loop of `ARIMAForecaster.forecast`: invert each
differenced-scale forecast against the rolling tail, then slide the tail
(`shift()` the oldest, `push()` the reconstruction).  A `throw` from
`inverseDifferenceForecast` propagates. -/
def arimaReconstructLoop (d : ℕ) (armaForecasts : List ℚ) (tail : List ℚ) :
    Except DiffError (List ℚ) :=
  match armaForecasts with
  | [] => .ok []
  | forecastOfDifferenced :: restForecasts => do
    let reconstructed ←
      inverseDifferenceForecast forecastOfDifferenced tail (d : ℤ)
    let tail := if d > 0 then tail.tail ++ [reconstructed] else tail
    let rest ← arimaReconstructLoop d restForecasts tail
    return reconstructed :: rest

/-- `ARIMAForecaster.forecast`: raw-mean fill when no ARMA sub-model or no
usable differenced series exists; delegate to the inner ARMA forecast (whose
possible self-repair writes back into the stored sub-model); pass through at
`d = 0`, else pad the stored tail to length `d` and reconstruct step by step. -/
def arimaForecast (s : ARIMAState) (t : ℚ) (horizon : ℕ) :
    Except DiffError (ARIMAState × List ℚ) :=
  let meanFill : List ℚ :=
    List.replicate horizon
      (if s.timeSeries.data.length > 0 then mean s.timeSeries.xs else 0)
  match s.armaForecaster, s.differencedTimeSeries with
  | none, _ => .ok (s, meanFill)
  | some _, none => .ok (s, meanFill)
  | some arma, some diffTS =>
    if diffTS.data.length = 0 ∧ (s.params.p > 0 ∨ s.params.q > 0) then
      .ok (s, meanFill)
    else
      let lastOriginalTime :=
        if s.timeSeries.data.length > 0 then
          (s.timeSeries.data.getLast?.getD ⟨0, 0⟩).t
        else t
      let res := armaForecast arma lastOriginalTime horizon
      let s := { s with armaForecaster := some res.1 }
      let armaForecasts := res.2
      if s.params.d = 0 then .ok (s, armaForecasts)
      else
        let tail0 := s.originalSeriesTail.getD 0 []
        let lastKnownOriginalValue :=
          if s.timeSeries.data.length > 0 then
            (s.timeSeries.data.getLast?.getD ⟨0, 0⟩).x
          else 0
        let tail := arimaPadTail s.timeSeries lastKnownOriginalValue
          (s.params.d - tail0.length) tail0
        -- the source's second padding block is unreachable: the loop above
        -- already leaves the tail at length ≥ d
        match arimaReconstructLoop s.params.d armaForecasts tail with
        | .ok finalForecasts => .ok (s, finalForecasts)
        | .error e => .error e

/-- `ARIMAForecaster.updateParams`: a `d` change re-differences and rebuilds;
otherwise forward the params to an existing ARMA sub-model, or rebuild when
none exists. -/
def arimaUpdateParams (s : ARIMAState) (np : ARIMAParamsIn) : ARIMAState :=
  let needsReInit := np.d.isSome ∧ np.d ≠ some s.params.d
  let params : ARIMAParams :=
    { p := np.p.getD s.params.p, d := np.d.getD s.params.d, q := np.q.getD s.params.q
      arCoefficients := np.arCoefficients.orElse (fun _ => s.params.arCoefficients)
      maCoefficients := np.maCoefficients.orElse (fun _ => s.params.maCoefficients)
      errors := np.errors.orElse (fun _ => s.params.errors) }
  let s := { s with params := params }
  if needsReInit then arimaInitializeOrUpdateArma s
  else
    match s.armaForecaster with
    | some arma =>
      { s with armaForecaster := some (armaUpdateParams arma s.params.toArmaIn) }
    | none => arimaInitializeOrUpdateArma s

/-! ## Claims -/

/-- C7: `inverseDifferenceForecast(F, tail, d)` returns `F` unchanged when
`d = 0`; raises `InvalidOrder` when `d < 0`; raises `InsufficientHistory`
when `d ≥ 1` and `tail.length < d`; and raises no error in any other case
(it returns a value for every `d ≥ 1` with `tail.length ≥ d`). -/
theorem C7_inverseDifference_error_handling :
    (∀ (F : ℚ) (tail : List ℚ), inverseDifferenceForecast F tail 0 = .ok F)
    ∧ (∀ (F : ℚ) (tail : List ℚ) (d : ℤ), d < 0 →
        inverseDifferenceForecast F tail d = .error .invalidOrder)
    ∧ (∀ (F : ℚ) (tail : List ℚ) (d : ℤ), 1 ≤ d → (tail.length : ℤ) < d →
        inverseDifferenceForecast F tail d = .error .insufficientHistory)
    ∧ (∀ (F : ℚ) (tail : List ℚ) (d : ℤ), 1 ≤ d → d ≤ (tail.length : ℤ) →
        ∃ v, inverseDifferenceForecast F tail d = .ok v) := by
  refine ⟨fun F tail => rfl, fun F tail d hd => ?_, fun F tail d hd hlen => ?_,
    fun F tail d hd hlen => ?_⟩
  · rw [inverseDifferenceForecast, if_neg (by omega), if_pos hd]
  · rw [inverseDifferenceForecast, if_neg (by omega), if_neg (by omega), if_pos hlen]
  · rw [inverseDifferenceForecast, if_neg (by omega), if_neg (by omega),
      if_neg (by omega)]
    split
    · exact ⟨_, rfl⟩
    · split
      · exact ⟨_, rfl⟩
      · exact ⟨_, rfl⟩

/-- Witness for C7 at concrete inputs. -/
theorem C7_witness :
    inverseDifferenceForecast 6 [10, 15] (-3) = .error .invalidOrder
    ∧ inverseDifferenceForecast 6 [10, 15] 3 = .error .insufficientHistory
    ∧ ∃ v, inverseDifferenceForecast 6 [10, 15] 2 = .ok v :=
  ⟨C7_inverseDifference_error_handling.2.1 6 [10, 15] (-3) (by norm_num),
   C7_inverseDifference_error_handling.2.2.1 6 [10, 15] 3 (by norm_num) (by norm_num),
   C7_inverseDifference_error_handling.2.2.2 6 [10, 15] 2 (by norm_num) (by norm_num)⟩

/-- C9: with equal lengths `p`, `predictAR(history, coefficients)` is
`Σ_{i=1}^{p} φ_i · history[p-i]` (so `φ_1` multiplies the most recent,
last, entry of the oldest-first history); on a length mismatch it returns
`0`; and `predictAR([10],[0.5]) = 5`, `predictAR([8,10],[0.5,0.2]) = 6.6`. -/
theorem C9_predictAR_spec :
    (∀ history coefficients : List ℚ,
      history.length = coefficients.length →
      predictAR history coefficients
        = ∑ i ∈ Finset.Icc 1 coefficients.length,
            coefficients.getD (i - 1) 0
              * history.getD (coefficients.length - i) 0)
    ∧ (∀ history coefficients : List ℚ,
        history.length ≠ coefficients.length → predictAR history coefficients = 0)
    ∧ predictAR [10] [0.5] = 5
    ∧ predictAR [8, 10] [0.5, 0.2] = 6.6 := by
  refine ⟨fun history coefficients h => ?_, fun history coefficients h => ?_,
    by norm_num [predictAR, Finset.sum_range_succ],
    by norm_num [predictAR, Finset.sum_range_succ]⟩
  · rw [predictAR, if_neg (by omega), ← Nat.Ico_succ_right,
      Finset.sum_Ico_eq_sum_range]
    refine Finset.sum_congr (by norm_num) fun i hi => ?_
    have h1 : 1 + i - 1 = i := by omega
    have h2 : coefficients.length - (1 + i) = coefficients.length - 1 - i := by omega
    rw [h1, h2]
  · rw [predictAR, if_pos h]

/-- Witness for C9 at concrete inputs. -/
theorem C9_witness :
    predictAR [3, 4] [5, 6]
      = ∑ i ∈ Finset.Icc 1 ([5, 6] : List ℚ).length,
          ([5, 6] : List ℚ).getD (i - 1) 0
            * ([3, 4] : List ℚ).getD (([5, 6] : List ℚ).length - i) 0
    ∧ predictAR [1, 2, 3] [7] = 0 :=
  ⟨C9_predictAR_spec.1 [3, 4] [5, 6] (by norm_num),
   C9_predictAR_spec.2.1 [1, 2, 3] [7] (by norm_num)⟩

/-- C8: for `p = 1` and at least two data points, `estimateARCoefficients`
is the autocovariance ratio `[r(1)/r(0)]` (and `[0]` when `r(0) = 0`); on
`[1,2,3,4,5]` this gives `[0.4]` (ratio `0.8/2`). -/
theorem C8_estimateAR_p1 :
    (∀ data : List ℚ, 2 ≤ data.length →
      estimateARCoefficients data 1
        = if autocovariance data 0 = 0 then [0]
          else [autocovariance data 1 / autocovariance data 0])
    ∧ estimateARCoefficients [1, 2, 3, 4, 5] 1 = [0.4] := by
  constructor
  · intro data h
    rw [estimateARCoefficients, if_neg (by omega), if_neg (by omega), if_pos rfl]
    simp [List.range_succ]
  · norm_num [estimateARCoefficients, autocovariance, mean, List.range_succ,
      Finset.sum_range_succ]

/-- Witness for C8 at a concrete input. -/
theorem C8_witness :
    estimateARCoefficients [2, 4] 1
      = if autocovariance [2, 4] 0 = 0 then [0]
        else [autocovariance [2, 4] 1 / autocovariance [2, 4] 0] :=
  C8_estimateAR_p1.1 [2, 4] (by norm_num)

/-- C6: an `MAForecaster` with `q = 1`, coefficient `0.5`, initial error
`0.2` over series `[10, 12]`: after `updateTimeSeries` appends `13`, the
stored error history is exactly `[(13 - mean [10,12,13]) - 0.5·0.2]`,
i.e. `[37/30]` (≈ 1.2333). -/
theorem C6_ma_error_history_update :
    (maUpdateTimeSeries
        (maNew ⟨[⟨0, 10⟩, ⟨1, 12⟩]⟩
          { q := some 1, coefficients := some [0.5], errors := some [0.2] })
        ⟨[⟨0, 10⟩, ⟨1, 12⟩, ⟨2, 13⟩]⟩).errors
      = [(13 - mean [10, 12, 13]) - 0.5 * 0.2]
    ∧ (13 - mean [10, 12, 13]) - 0.5 * 0.2 = 37 / 30 := by
  constructor
  · simp [maUpdateTimeSeries, maNew, maInitialize, maUpdateAndGetPastErrors,
      maCalculateForecastForErrorUpdate, predictMA, jsSliceNeg, TimeSeries.xs,
      estimateMACoefficients, mean, List.range_succ, Finset.sum_range_succ]
  · norm_num [mean]

/-! ### C10: MA forecasts settle at the series mean after q steps -/

/-- One slide of the simulated MA error window in `MAForecaster.forecast`:
drop the oldest error, prepend an assumed-zero future error. -/
def maErrShift (e : List ℚ) : List ℚ :=
  0 :: e.dropLast

theorem maErrShift_length (e : List ℚ) (he : e ≠ []) :
    (maErrShift e).length = e.length := by
  cases e with
  | nil => exact absurd rfl he
  | cons a l => simp [maErrShift]

theorem maForecastLoop_getD (c : List ℚ) (sm : ℚ) :
    ∀ (h : ℕ) (e : List ℚ) (i : ℕ), i < h →
      (maForecastLoop e c sm h).getD i 0 = predictMA (maErrShift^[i] e) c + sm := by
  intro h
  induction h with
  | zero => omega
  | succ h ih =>
    intro e i hi
    cases i with
    | zero => simp [maForecastLoop]
    | succ i =>
      rw [maForecastLoop, List.getD_cons_succ,
        show (0 : ℚ) :: e.dropLast = maErrShift e from rfl,
        ih (maErrShift e) i (by omega), ← Function.iterate_succ_apply]

theorem maErrShift_iterate_eq (e : List ℚ) :
    ∀ k, k ≤ e.length →
      maErrShift^[k] e = List.replicate k 0 ++ e.take (e.length - k) := by
  intro k
  induction k generalizing e with
  | zero => simp
  | succ k ih =>
    intro hk
    have hlen : e.length ≥ 1 := by omega
    have hne : e ≠ [] := by
      cases e
      · simp at hlen
      · simp
    rw [Function.iterate_succ_apply, ih (maErrShift e) (by rw [maErrShift_length e hne]; omega)]
    rw [maErrShift_length e hne]
    show List.replicate k 0 ++ (0 :: e.dropLast).take (e.length - k)
      = List.replicate (k + 1) 0 ++ e.take (e.length - (k + 1))
    have h1 : e.length - k = (e.length - (k + 1)) + 1 := by omega
    rw [h1, List.take_succ_cons, List.dropLast_eq_take, List.take_take]
    have h2 : (e.length - (k + 1)) ⊓ (e.length - 1) = e.length - (k + 1) := by omega
    rw [h2, List.append_cons, ← List.replicate_succ']

theorem maErrShift_iterate_replicate (q m : ℕ) (hq : 1 ≤ q) :
    maErrShift^[m] (List.replicate q 0) = List.replicate q 0 := by
  refine Function.iterate_fixed ?_ m
  show (0 : ℚ) :: (List.replicate q (0:ℚ)).dropLast = List.replicate q 0
  rw [List.dropLast_eq_take, List.length_replicate, List.take_replicate]
  have h2 : (q - 1) ⊓ q = q - 1 := by omega
  rw [h2, ← List.replicate_succ]
  congr 1
  omega

theorem predictMA_replicate_zero (c : List ℚ) (q : ℕ) (hc : c.length = q) :
    predictMA (List.replicate q 0) c = 0 := by
  rw [predictMA, if_neg (by simp [hc])]
  refine Finset.sum_eq_zero fun i hi => ?_
  have hz : (List.replicate q (0 : ℚ)).getD i 0 = 0 := by
    rw [List.getD_eq_getElem?_getD, List.getElem?_replicate]
    split <;> simp
  rw [hz, mul_zero]

/-- C10: for an `MAForecaster` with `q ≥ 1` and a coefficient vector of
length `q`, every `forecast(t, horizon)` entry at index `i ≥ q` equals
`seriesMean`: after `q` simulated steps the rolling error window holds only
assumed-zero future errors. -/
theorem C10_ma_forecast_settles_at_mean
    (s : MAState) (t : ℚ) (horizon i : ℕ)
    (hq : 1 ≤ s.params.q) (hc : s.coefficients.length = s.params.q)
    (hi : s.params.q ≤ i) (hih : i < horizon) :
    ((maForecast s t horizon).2).getD i 0 = s.seriesMean := by
  rw [maForecast, if_neg (by omega)]
  have hcond : ¬(s.coefficients.length ≠ s.params.q ∧ s.params.coefficients = none) := by
    simp [hc]
  rw [if_neg hcond, if_neg (by simp [hc])]
  simp only [maUpdateAndGetPastErrors]
  set errList := (jsSliceNeg
    (List.replicate (s.params.q - s.errors.length) 0 ++ s.errors) s.params.q).reverse
    with herrList
  have hlen : errList.length = s.params.q := by
    rw [herrList, List.length_reverse, jsSliceNeg, if_neg (by omega),
      List.length_drop]
    simp
    omega
  rw [maForecastLoop_getD s.coefficients s.seriesMean horizon errList i hih]
  have hsplit : maErrShift^[i] errList = List.replicate s.params.q 0 := by
    have : i = (i - s.params.q) + s.params.q := by omega
    rw [this, Function.iterate_add_apply,
      maErrShift_iterate_eq errList s.params.q (by omega), hlen]
    simp
    exact maErrShift_iterate_replicate s.params.q (i - s.params.q) hq
  rw [hsplit, predictMA_replicate_zero s.coefficients s.params.q hc, zero_add]

/-- Witness for C10 at a concrete state. -/
theorem C10_witness :
    ((maForecast
        { params := { q := 1, coefficients := some [0.5], errors := some [0.3] }
          timeSeries := ⟨[⟨0, 5⟩]⟩
          coefficients := [0.5], errors := [0.3], seriesMean := 5 }
        0 2).2).getD 1 0 = 5 :=
  C10_ma_forecast_settles_at_mean
    { params := { q := 1, coefficients := some [0.5], errors := some [0.3] }
      timeSeries := ⟨[⟨0, 5⟩]⟩
      coefficients := [0.5], errors := [0.3], seriesMean := 5 }
    0 2 1 (by norm_num) (by norm_num) (by norm_num) (by norm_num)

/-! ### C3: error-history length invariants -/

theorem armaEstimateLocal_params (s : ARMAState) (c : List ℚ) :
    (armaEstimateLocalCoefficients s c).params = s.params := by
  rw [armaEstimateLocalCoefficients]
  split_ifs <;> simp [apply_ite ARMAState.params]

theorem armaEstimateLocal_errors (s : ARMAState) (c : List ℚ) :
    (armaEstimateLocalCoefficients s c).errors = s.errors := by
  rw [armaEstimateLocalCoefficients]
  split_ifs <;> simp [apply_ite ARMAState.errors]

theorem armaEstimateLocal_timeSeries (s : ARMAState) (c : List ℚ) :
    (armaEstimateLocalCoefficients s c).timeSeries = s.timeSeries := by
  rw [armaEstimateLocalCoefficients]
  split_ifs <;> simp [apply_ite ARMAState.timeSeries]

theorem armaFixErrors_spec (s : ARMAState) :
    (armaFixErrors s).errors.length = s.params.q
    ∧ (armaFixErrors s).params = s.params
    ∧ (armaFixErrors s).timeSeries = s.timeSeries := by
  rw [armaFixErrors]
  split_ifs with h1 h2 h3 h2 h3 <;> simp_all <;> omega

theorem armaInitialize_spec (s : ARMAState) :
    (armaInitialize s).errors.length = s.params.q
    ∧ (armaInitialize s).params = s.params
    ∧ (armaInitialize s).timeSeries = s.timeSeries := by
  rw [armaInitialize]
  have key : ∀ s1 : ARMAState, s1.params = s.params → s1.timeSeries = s.timeSeries →
      (armaFixErrors s1).errors.length = s.params.q
      ∧ (armaFixErrors s1).params = s.params
      ∧ (armaFixErrors s1).timeSeries = s.timeSeries := by
    intro s1 hp ht
    obtain ⟨g1, g2, g3⟩ := armaFixErrors_spec s1
    exact ⟨by rw [g1, hp], by rw [g2, hp], by rw [g3, ht]⟩
  refine key _ ?_ ?_ <;>
    (rcases harc : s.params.arCoefficients with _ | arC <;>
      rcases hmac : s.params.maCoefficients with _ | maC <;>
      rcases hcs : s.params.coefficients with _ | cs <;>
      simp only [harc, hmac, hcs] <;>
      (try split_ifs) <;>
      simp [armaEstimateLocal_params, armaEstimateLocal_timeSeries])

theorem armaAbsorbNewPoint_spec (c : List ℚ) (s : ARMAState) (i : ℕ)
    (h : s.errors.length = s.params.q) :
    (armaAbsorbNewPoint c s i).errors.length = s.params.q
    ∧ (armaAbsorbNewPoint c s i).params = s.params
    ∧ (armaAbsorbNewPoint c s i).timeSeries = s.timeSeries := by
  have hcond : ∀ e : ℚ,
      (s.errors ++ [e]).length > s.params.q := by
    intro e
    simp [h]
  rw [armaAbsorbNewPoint]
  split_ifs with h1 <;>
    refine ⟨?_, rfl, rfl⟩ <;>
    simp [h, List.length_tail]

theorem armaUpdate_fold_spec (c : List ℚ) (off : ℕ) :
    ∀ (l : List ℕ) (s : ARMAState),
      s.errors.length = s.params.q →
      (l.foldl (fun s i => armaAbsorbNewPoint c s (off + i)) s).errors.length
          = s.params.q
      ∧ (l.foldl (fun s i => armaAbsorbNewPoint c s (off + i)) s).params
          = s.params := by
  intro l
  induction l with
  | nil => exact fun s h => ⟨h, rfl⟩
  | cons a l ih =>
    intro s h
    obtain ⟨g1, g2, _⟩ := armaAbsorbNewPoint_spec c s (off + a) h
    obtain ⟨k1, k2⟩ := ih (armaAbsorbNewPoint c s (off + a)) (by rw [g1, g2])
    rw [List.foldl_cons]
    exact ⟨by rw [k1, g2], by rw [k2, g2]⟩

theorem armaUpdateTimeSeries_spec (s : ARMAState) (ts : TimeSeries)
    (h : s.errors.length = s.params.q) :
    (armaUpdateTimeSeries s ts).errors.length = (armaUpdateTimeSeries s ts).params.q := by
  rw [armaUpdateTimeSeries]
  dsimp only
  split_ifs with h1 h2 h3 h4
  · simp
  · have k := armaUpdate_fold_spec
      (ts.data.map (fun dp => dp.x - mean ts.xs)) s.timeSeries.data.length
      (List.range (ts.data.length - s.timeSeries.data.length))
      { s with timeSeries := ts, seriesMean := mean ts.xs }
      (by simpa using h)
    exact k.1.trans (congrArg ARMAParams.q k.2).symm
  · have k := armaInitialize_spec
      { s with timeSeries := ts, seriesMean := mean ts.xs }
    exact k.1.trans (congrArg ARMAParams.q k.2.1).symm
  · simp
    omega
  · simpa using h

theorem armaUpdateParams_spec (s : ARMAState) (np : ARMAParamsIn)
    (h : s.errors.length = s.params.q) :
    (armaUpdateParams s np).errors.length = (armaUpdateParams s np).params.q := by
  rw [armaUpdateParams]
  dsimp only
  by_cases h1 : (np.p.isSome ∧ np.p ≠ some s.params.p)
      ∨ (np.q.isSome ∧ np.q ≠ some s.params.q)
      ∨ np.arCoefficients.isSome ∨ np.maCoefficients.isSome ∨ np.coefficients.isSome
  · rw [if_pos h1]
    by_cases h2 : s.timeSeries.data.length > 0
    · rw [if_pos h2]
      exact (armaInitialize_spec _).1.trans
        (congrArg ARMAParams.q (armaInitialize_spec _).2.1).symm
    · rw [if_neg h2]
      split_ifs <;> simp
  · rw [if_neg h1]
    have hq : np.q.getD s.params.q = s.params.q := by
      rcases hnq : np.q with _ | q2
      · rfl
      · push_neg at h1
        have h2 := h1.2.1 (by simp [hnq])
        rw [hnq] at h2
        have h3 : q2 = s.params.q := by
          injection h2
        simp [h3]
    rcases he : np.errors with _ | e
    · simpa [hq] using h
    · dsimp only
      simp only [hq]
      split_ifs with g1 g2 g3 <;> simp_all <;> omega

theorem maInitialize_spec (s : MAState) (h : s.errors.length ≤ s.params.q) :
    (maInitialize s).errors.length = s.params.q
    ∧ (maInitialize s).params = s.params
    ∧ (maInitialize s).timeSeries = s.timeSeries := by
  rw [maInitialize]
  refine ⟨?_, rfl, rfl⟩
  dsimp only
  split_ifs with h1
  · simp
    omega
  · omega

theorem maAbsorb_spec (s : MAState) (v : ℚ)
    (hq : 1 ≤ s.params.q) (h : s.errors.length = s.params.q)
    (hts : s.timeSeries.data.length > 0) :
    ((maUpdateAndGetPastErrors s (some v)).1).errors.length = s.params.q
    ∧ ((maUpdateAndGetPastErrors s (some v)).1).params = s.params
    ∧ ((maUpdateAndGetPastErrors s (some v)).1).timeSeries = s.timeSeries := by
  rw [maUpdateAndGetPastErrors]
  dsimp only
  rw [if_pos hts]
  refine ⟨?_, rfl, rfl⟩
  dsimp only
  split_ifs with h1
  · simp [List.length_tail, h]
  · exfalso
    simp [h] at h1
    omega

theorem maUpdate_fold_spec (ts : TimeSeries) (off : ℕ)
    (hts : ts.data.length > 0) :
    ∀ (l : List ℕ) (s : MAState), 1 ≤ s.params.q →
      s.errors.length = s.params.q → s.timeSeries = ts →
      ((l.foldl (fun s i =>
          (maUpdateAndGetPastErrors s
            (some ((ts.data.getD (off + i) ⟨0, 0⟩).x))).1) s)).errors.length
        = s.params.q
      ∧ ((l.foldl (fun s i =>
          (maUpdateAndGetPastErrors s
            (some ((ts.data.getD (off + i) ⟨0, 0⟩).x))).1) s)).params = s.params := by
  intro l
  induction l with
  | nil => exact fun s _ h _ => ⟨h, rfl⟩
  | cons a l ih =>
    intro s hq h hseries
    have hts2 : s.timeSeries.data.length > 0 := by rw [hseries]; exact hts
    obtain ⟨g1, g2, g3⟩ :=
      maAbsorb_spec s ((ts.data.getD (off + a) ⟨0, 0⟩).x) hq h hts2
    obtain ⟨k1, k2⟩ := ih
      ((maUpdateAndGetPastErrors s (some ((ts.data.getD (off + a) ⟨0, 0⟩).x))).1)
      (by rw [g2]; exact hq) (by rw [g1, g2]) (by rw [g3, hseries])
    rw [List.foldl_cons]
    exact ⟨by rw [k1, g2], by rw [k2, g2]⟩

theorem maUpdateTimeSeries_spec (s : MAState) (ts : TimeSeries)
    (hq : 1 ≤ s.params.q) (h : s.errors.length = s.params.q) :
    (maUpdateTimeSeries s ts).errors.length = (maUpdateTimeSeries s ts).params.q := by
  rw [maUpdateTimeSeries]
  dsimp only
  split_ifs with h1 h2
  · have hts : ts.data.length > 0 := by omega
    have k := maUpdate_fold_spec ts s.timeSeries.data.length hts
      (List.range (ts.data.length - s.timeSeries.data.length))
      { s with timeSeries := ts, seriesMean := mean ts.xs }
      (by simpa using hq) (by simpa using h) rfl
    exact k.1.trans (congrArg MAParams.q k.2).symm
  · have k := maInitialize_spec { s with timeSeries := ts, seriesMean := mean ts.xs }
      (by simpa using h.le)
    exact k.1.trans (congrArg MAParams.q k.2.1).symm
  · simpa using h

theorem maUpdateParams_spec (s : MAState) (np : MAParamsIn)
    (h : s.errors.length = s.params.q)
    (hcond : match np.q with
      | some q2 => q2 = s.params.q
          ∨ ((np.errors.orElse (fun _ => s.params.errors)).getD []).length ≤ q2
      | none => True) :
    (maUpdateParams s np).errors.length = (maUpdateParams s np).params.q := by
  rw [maUpdateParams]
  dsimp only
  by_cases h1 : np.q.isSome ∧ np.q ≠ some s.params.q
  · rw [if_pos h1]
    rcases hnq : np.q with _ | q2
    · rw [hnq] at h1
      simp at h1
    · rw [hnq] at h1
      have hne : q2 ≠ s.params.q := by
        intro hh
        exact h1.2 (by rw [hh])
      rw [hnq] at hcond
      have hle : ((np.errors.orElse (fun _ => s.params.errors)).getD []).length ≤ q2 := by
        rcases hcond with hc | hc
        · exact absurd hc hne
        · exact hc
      have k := maInitialize_spec
        { s with
          params :=
            { q := (some q2).getD s.params.q
              coefficients := np.coefficients.orElse (fun _ => s.params.coefficients)
              errors := np.errors.orElse (fun _ => s.params.errors) }
          coefficients := (np.coefficients.orElse (fun _ => s.params.coefficients)).getD []
          errors := (np.errors.orElse (fun _ => s.params.errors)).getD [] }
        hle
      exact k.1.trans (congrArg MAParams.q k.2.1).symm
  · rw [if_neg h1]
    have hq : np.q.getD s.params.q = s.params.q := by
      rcases hnq : np.q with _ | q2
      · rfl
      · rw [hnq] at h1
        push_neg at h1
        have h2 := h1 (by simp)
        have h3 : q2 = s.params.q := by injection h2
        simp [h3]
    rcases he : np.errors with _ | e
    · dsimp only
      rcases hc : np.coefficients with _ | c <;>
        simp only [hc, hq] <;>
        split_ifs <;>
        (try simp_all) <;>
        (try omega)
    · dsimp only
      rcases hc : np.coefficients with _ | c <;>
        simp only [hc, hq] <;>
        split_ifs <;>
        (try simp_all) <;>
        (try omega)

/-- A sample ARMA state used by the C3 witness. -/
def arma3W : ARMAState :=
  { params := { p := 0, q := 1, coefficients := none, arCoefficients := none
                maCoefficients := none, errors := none }
    timeSeries := ⟨[⟨0, 1⟩]⟩, arCoefficients := [], maCoefficients := [0.1]
    errors := [0.2], seriesMean := 1 }

/-- A sample MA state used by the C3 witness. -/
def ma3W : MAState :=
  { params := { q := 1, coefficients := some [0.5], errors := none }
    timeSeries := ⟨[⟨0, 1⟩]⟩, coefficients := [0.5], errors := [0.2]
    seriesMean := 1 }

/-- C3 counterexample: an `MAForecaster` constructed over the non-empty
series `[1]` with `q = 1` and a supplied initial error array `[0.1, 0.2]`
keeps both entries — `initialize` left-pads but never truncates — so the
stored error history does not have length `q`. -/
theorem C3_counterexample :
    ¬ ((maNew ⟨[⟨0, 1⟩]⟩ { q := some 1, errors := some [0.1, 0.2] }).errors.length
        = (maNew ⟨[⟨0, 1⟩]⟩ { q := some 1, errors := some [0.1, 0.2] }).params.q) := by
  norm_num [maNew, maInitialize, estimateMACoefficients, mean, TimeSeries.xs]

/-- C3 amended: for `ARMAForecaster` the invariant holds as the claim states
it — the error history has length exactly `q` after construction over a
non-empty series, and any state satisfying it keeps it across
`updateTimeSeries` and `updateParams`.  For `MAForecaster` it holds after
construction only when the supplied initial error array is no longer than
`q`; `updateTimeSeries` preserves it when `q ≥ 1`; and `updateParams`
preserves it provided a `q`-changing call's effective error array (the newly
supplied one, else the construction-time one) is no longer than the new `q`. -/
theorem C3_amended_error_history_length :
    (∀ (ts : TimeSeries) (pin : ARMAParamsIn), ts.data ≠ [] →
      (armaNew ts pin).errors.length = (armaNew ts pin).params.q)
    ∧ (∀ (s : ARMAState) (ts : TimeSeries), s.errors.length = s.params.q →
        (armaUpdateTimeSeries s ts).errors.length
          = (armaUpdateTimeSeries s ts).params.q)
    ∧ (∀ (s : ARMAState) (np : ARMAParamsIn), s.errors.length = s.params.q →
        (armaUpdateParams s np).errors.length = (armaUpdateParams s np).params.q)
    ∧ (∀ (ts : TimeSeries) (pin : MAParamsIn), ts.data ≠ [] →
        (pin.errors.getD []).length ≤ pin.q.getD 1 →
        (maNew ts pin).errors.length = (maNew ts pin).params.q)
    ∧ (∀ (s : MAState) (ts : TimeSeries), 1 ≤ s.params.q →
        s.errors.length = s.params.q →
        (maUpdateTimeSeries s ts).errors.length
          = (maUpdateTimeSeries s ts).params.q)
    ∧ (∀ (s : MAState) (np : MAParamsIn), s.errors.length = s.params.q →
        (match np.q with
          | some q2 => q2 = s.params.q
              ∨ ((np.errors.orElse (fun _ => s.params.errors)).getD []).length ≤ q2
          | none => True) →
        (maUpdateParams s np).errors.length = (maUpdateParams s np).params.q) := by
  refine ⟨fun ts pin hne => ?_, armaUpdateTimeSeries_spec, armaUpdateParams_spec,
    fun ts pin hne hlen => ?_, maUpdateTimeSeries_spec, maUpdateParams_spec⟩
  · rw [armaNew]
    dsimp only
    rw [if_pos (by simpa [List.length_pos] using hne)]
    exact (armaInitialize_spec _).1.trans
      (congrArg ARMAParams.q (armaInitialize_spec _).2.1).symm
  · rw [maNew]
    dsimp only
    rw [if_pos (by simpa [List.length_pos] using hne)]
    have k := maInitialize_spec
      { params := { q := pin.q.getD 1, coefficients := pin.coefficients
                    errors := pin.errors }
        timeSeries := ts, coefficients := pin.coefficients.getD []
        errors := pin.errors.getD [], seriesMean := 0 }
      hlen
    exact k.1.trans (congrArg MAParams.q k.2.1).symm

/-- Witness: the amended C3 at concrete forecasters and states. -/
theorem C3_witness :
    (armaNew ⟨[⟨0, 1⟩]⟩ {}).errors.length = (armaNew ⟨[⟨0, 1⟩]⟩ {}).params.q
    ∧ (armaUpdateTimeSeries arma3W ⟨[⟨0, 2⟩]⟩).errors.length
        = (armaUpdateTimeSeries arma3W ⟨[⟨0, 2⟩]⟩).params.q
    ∧ (armaUpdateParams arma3W {}).errors.length
        = (armaUpdateParams arma3W {}).params.q
    ∧ (maNew ⟨[⟨0, 1⟩]⟩ {}).errors.length = (maNew ⟨[⟨0, 1⟩]⟩ {}).params.q
    ∧ (maUpdateTimeSeries ma3W ⟨[⟨0, 2⟩]⟩).errors.length
        = (maUpdateTimeSeries ma3W ⟨[⟨0, 2⟩]⟩).params.q
    ∧ (maUpdateParams ma3W {}).errors.length
        = (maUpdateParams ma3W {}).params.q :=
  ⟨C3_amended_error_history_length.1 ⟨[⟨0, 1⟩]⟩ {} (by simp),
   C3_amended_error_history_length.2.1 arma3W ⟨[⟨0, 2⟩]⟩ (by norm_num [arma3W]),
   C3_amended_error_history_length.2.2.1 arma3W {} (by norm_num [arma3W]),
   C3_amended_error_history_length.2.2.2.1 ⟨[⟨0, 1⟩]⟩ {} (by simp) (by simp),
   C3_amended_error_history_length.2.2.2.2.1 ma3W ⟨[⟨0, 2⟩]⟩ (by norm_num [ma3W])
     (by norm_num [ma3W]),
   C3_amended_error_history_length.2.2.2.2.2 ma3W {} (by norm_num [ma3W]) (by simp)⟩

/-! ### C2: forecast as a frame effect -/

/-- C2 counterexample: an `MAForecaster` constructed over an empty series
with default params (`q = 1`, nothing pinned) has an empty coefficient
vector, so `forecast` takes the repair path, re-runs `initialize()` and
rewrites the stored coefficients (and error history) — the model state is
not left unchanged. -/
theorem C2_counterexample :
    ((maForecast (maNew ⟨[]⟩ {}) 0 1).1).coefficients
      ≠ (maNew ⟨[]⟩ {}).coefficients := by
  have h1 : ((maForecast (maNew ⟨[]⟩ {}) 0 1).1).coefficients = [0.1] := by
    norm_num [maForecast, maNew, maInitialize, maUpdateAndGetPastErrors,
      estimateMACoefficients, mean, TimeSeries.xs, jsSliceNeg]
  have h2 : (maNew ⟨[]⟩ {}).coefficients = [] := by
    norm_num [maNew]
  rw [h1, h2]
  simp

theorem inverseDifferenceForecast_isOk (F : ℚ) (tail : List ℚ) (d : ℕ)
    (hd : 1 ≤ d) (hlen : d ≤ tail.length) :
    ∃ v, inverseDifferenceForecast F tail (d : ℤ) = .ok v := by
  rw [inverseDifferenceForecast, if_neg (by omega), if_neg (by omega),
    if_neg (by omega)]
  split
  · exact ⟨_, rfl⟩
  · split
    · exact ⟨_, rfl⟩
    · exact ⟨_, rfl⟩

theorem arimaPadTail_length (ts : TimeSeries) (lk : ℚ) :
    ∀ (k : ℕ) (tail : List ℚ),
      (arimaPadTail ts lk k tail).length = tail.length + k := by
  intro k
  induction k with
  | zero => intro tail; rfl
  | succ k ih =>
    intro tail
    rw [arimaPadTail, ih]
    simp
    omega

theorem arimaReconstructLoop_isOk (d : ℕ) (hd : 1 ≤ d) :
    ∀ (fc tail : List ℚ), d ≤ tail.length →
      ∃ l, arimaReconstructLoop d fc tail = .ok l := by
  intro fc
  induction fc with
  | nil => exact fun tail _ => ⟨[], rfl⟩
  | cons F rest ih =>
    intro tail hlen
    obtain ⟨v, hv⟩ := inverseDifferenceForecast_isOk F tail d hd hlen
    have htl : (tail.tail ++ [v]).length = tail.length := by
      rw [List.length_append, List.length_tail]
      simp
      omega
    obtain ⟨l, hl⟩ := ih (tail.tail ++ [v]) (by rw [htl]; exact hlen)
    refine ⟨v :: l, ?_⟩
    rw [arimaReconstructLoop]
    rw [hv]
    simp only [Except.bind, bind, if_pos (by omega : 0 < d)]
    rw [hl]
    rfl

/-- C2 amended: `forecast` leaves the shared model state unchanged whenever
the stored coefficient vector lengths match the declared orders (AR: `p`;
MA: `q`; ARMA: `p` and `q` when positive; ARIMA: its own fields always, with
the same condition on the inner ARMA model).  When a length mismatches and
coefficients are not pinned, `forecast` re-runs initialization and may
rewrite coefficients, error history and mean. -/
theorem C2_amended_forecast_frame :
    (∀ (s : ARState) (t : ℚ) (h : ℕ), s.coefficients.length = s.params.p →
      (arForecast s t h).1 = s)
    ∧ (∀ (s : MAState) (t : ℚ) (h : ℕ), s.coefficients.length = s.params.q →
      (maForecast s t h).1 = s)
    ∧ (∀ (s : ARMAState) (t : ℚ) (h : ℕ),
        (s.params.p > 0 → s.arCoefficients.length = s.params.p) →
        (s.params.q > 0 → s.maCoefficients.length = s.params.q) →
        (armaForecast s t h).1 = s)
    ∧ (∀ (s : ARIMAState) (t : ℚ) (h : ℕ),
        (∀ a, s.armaForecaster = some a →
          (a.params.p > 0 → a.arCoefficients.length = a.params.p)
          ∧ (a.params.q > 0 → a.maCoefficients.length = a.params.q)) →
        ∃ l, arimaForecast s t h = .ok (s, l)) := by
  have har : ∀ (s : ARState) (t : ℚ) (h : ℕ), s.coefficients.length = s.params.p →
      (arForecast s t h).1 = s := by
    intro s t h hc
    have hc1 : ¬(s.coefficients.length ≠ s.params.p ∧ s.params.coefficients = none) :=
      fun hh => hh.1 hc
    rw [arForecast]
    dsimp only
    simp only [if_neg hc1]
    split_ifs <;> rfl
  have hma : ∀ (s : MAState) (t : ℚ) (h : ℕ), s.coefficients.length = s.params.q →
      (maForecast s t h).1 = s := by
    intro s t h hc
    have hc1 : ¬(s.coefficients.length ≠ s.params.q ∧ s.params.coefficients = none) :=
      fun hh => hh.1 hc
    rw [maForecast]
    dsimp only
    simp only [if_neg hc1]
    split_ifs <;> rfl
  have harma : ∀ (s : ARMAState) (t : ℚ) (h : ℕ),
      (s.params.p > 0 → s.arCoefficients.length = s.params.p) →
      (s.params.q > 0 → s.maCoefficients.length = s.params.q) →
      (armaForecast s t h).1 = s := by
    intro s t h hp hq
    have hc1 : ¬(s.params.p > 0 ∧ s.arCoefficients.length ≠ s.params.p) :=
      fun hh => hh.2 (hp hh.1)
    have hc2 : ¬(s.params.q > 0 ∧ s.maCoefficients.length ≠ s.params.q) :=
      fun hh => hh.2 (hq hh.1)
    rw [armaForecast]
    dsimp only
    simp only [if_neg hc1, if_neg hc2]
    split_ifs <;> rfl
  refine ⟨har, hma, harma, ?_⟩
  intro s t h hinner
  obtain ⟨ps, tss, af, dts, ost⟩ := s
  rw [arimaForecast]
  dsimp only
  rcases af with _ | arma
  · exact ⟨_, rfl⟩
  rcases dts with _ | diffTS
  · exact ⟨_, rfl⟩
  dsimp only
  obtain ⟨hp, hq⟩ := hinner arma rfl
  split_ifs
  all_goals try exact ⟨_, rfl⟩
  all_goals try (rw [harma arma _ h hp hq]; exact ⟨_, rfl⟩)
  all_goals (
    rw [harma arma _ h hp hq]
    split
    case _ heq => exact ⟨_, rfl⟩
    case _ e heq =>
      exfalso
      first
      | (obtain ⟨v, hv⟩ := arimaReconstructLoop_isOk ps.d (by omega)
            (armaForecast arma (tss.data.getLast?.getD ⟨0, 0⟩).t h).2
            (arimaPadTail tss (tss.data.getLast?.getD ⟨0, 0⟩).x
              (ps.d - (ost.getD 0 []).length) (ost.getD 0 []))
            (by rw [arimaPadTail_length]; omega)
         rw [heq] at hv
         exact Except.noConfusion hv)
      | (obtain ⟨v, hv⟩ := arimaReconstructLoop_isOk ps.d (by omega)
            (armaForecast arma t h).2
            (arimaPadTail tss 0 (ps.d - (ost.getD 0 []).length) (ost.getD 0 []))
            (by rw [arimaPadTail_length]; omega)
         rw [heq] at hv
         exact Except.noConfusion hv))

/-- A sample AR state used by the C2 witness. -/
def ar2W : ARState :=
  { params := { p := 1, coefficients := some [0.5] }
    timeSeries := ⟨[⟨0, 1⟩]⟩, coefficients := [0.5] }

/-- A sample MA state used by the C2 witness. -/
def ma2W : MAState :=
  { params := { q := 1, coefficients := some [0.5], errors := none }
    timeSeries := ⟨[⟨0, 1⟩]⟩, coefficients := [0.5], errors := [0.2]
    seriesMean := 1 }

/-- A sample ARMA state used by the C2 witness. -/
def arma2W : ARMAState :=
  { params := { p := 1, q := 1, coefficients := none
                arCoefficients := some [0.7], maCoefficients := some [0.3]
                errors := none }
    timeSeries := ⟨[⟨0, 1⟩]⟩, arCoefficients := [0.7], maCoefficients := [0.3]
    errors := [0.2], seriesMean := 1 }

/-- The inner ARMA model of the sample ARIMA state of the C2 witness. -/
def arma2WSub : ARMAState :=
  { params := { p := 0, q := 0, coefficients := none, arCoefficients := none
                maCoefficients := none, errors := none }
    timeSeries := ⟨[⟨1, 1⟩]⟩, arCoefficients := [], maCoefficients := []
    errors := [], seriesMean := 1 }

/-- A sample ARIMA state used by the C2 witness. -/
def arima2W : ARIMAState :=
  { params := { p := 0, d := 1, q := 0, arCoefficients := none
                maCoefficients := none, errors := none }
    timeSeries := ⟨[⟨0, 1⟩, ⟨1, 2⟩]⟩
    armaForecaster := some arma2WSub
    differencedTimeSeries := some ⟨[⟨1, 1⟩]⟩
    originalSeriesTail := [[2]] }

/-- Witness: the amended C2 at concrete states of all four forecasters. -/
theorem C2_witness :
    (arForecast ar2W 0 1).1 = ar2W
    ∧ (maForecast ma2W 0 1).1 = ma2W
    ∧ (armaForecast arma2W 0 1).1 = arma2W
    ∧ ∃ l, arimaForecast arima2W 0 2 = .ok (arima2W, l) :=
  ⟨C2_amended_forecast_frame.1 ar2W 0 1 (by norm_num [ar2W]),
   C2_amended_forecast_frame.2.1 ma2W 0 1 (by norm_num [ma2W]),
   C2_amended_forecast_frame.2.2.1 arma2W 0 1
     (by intro hh; norm_num [arma2W]) (by intro hh; norm_num [arma2W]),
   C2_amended_forecast_frame.2.2.2 arima2W 0 2
     (by
       intro a ha
       have ha2 : arma2WSub = a := by
         have := ha
         rw [arima2W] at this
         injection this
       subst ha2
       exact ⟨fun hh => by simp [arma2WSub] at hh,
         fun hh => by simp [arma2WSub] at hh⟩)⟩

/-! ### C5: concrete ARMA(1,1) two-step forecast -/

theorem drop_length_sub_one_eq_getLast (l : List ℚ) (h : l ≠ []) :
    l.drop (l.length - 1) = [l.getLast?.getD 0] := by
  induction l with
  | nil => exact absurd rfl h
  | cons a rest ih =>
    cases rest with
    | nil => rfl
    | cons b t =>
      have h2 : (a :: b :: t).length - 1 = (b :: t).length := by simp
      rw [h2]
      have h3 : (b :: t).length = ((b :: t).length - 1) + 1 := by simp
      rw [h3, List.drop_succ_cons, ih (by simp)]
      rw [List.getLast?_cons_cons]

/-- C5: an `ARMAForecaster` with `p = q = 1`, `φ = [0.7]`, `θ = [0.3]`,
error history `[0.2]`, over any series with mean `10` and last value `12`:
`forecast(t, 2) = [11.46, 11.022]` — step one is `10 + 0.7·2 + 0.3·0.2`,
step two `10 + 0.7·1.46 + 0.3·0` using step one's centered value with the
next error assumed `0`. -/
theorem C5_arma_two_step_forecast (ts : TimeSeries) (t : ℚ)
    (hne : ts.data ≠ [])
    (hmean : mean ts.xs = 10)
    (hlast : (ts.data.getLast?.getD ⟨0, 0⟩).x = 12) :
    (armaForecast
        (armaNew ts
          { p := some 1, q := some 1, arCoefficients := some [0.7]
            maCoefficients := some [0.3], errors := some [0.2] })
        t 2).2 = [11.46, 11.022] := by
  have hstate : armaNew ts
      { p := some 1, q := some 1, arCoefficients := some [0.7]
        maCoefficients := some [0.3], errors := some [0.2] }
      = { params := { p := 1, q := 1, coefficients := none
                      arCoefficients := some [0.7], maCoefficients := some [0.3]
                      errors := some [0.2] }
          timeSeries := ts, arCoefficients := [0.7], maCoefficients := [0.3]
          errors := [0.2], seriesMean := 10 } := by
    rw [armaNew]
    dsimp only
    rw [if_pos (by simpa [List.length_pos] using hne)]
    rw [armaInitialize]
    dsimp only
    rw [hmean]
    norm_num [armaFixErrors]
  rw [hstate, armaForecast]
  dsimp only
  rw [if_neg (by simp [hne])]
  rw [if_neg (by norm_num)]
  rw [if_neg (by norm_num), if_neg (by norm_num), if_neg (by norm_num),
    if_neg (by norm_num)]
  have hhist : jsSliceNeg (ts.data.map (fun dp => dp.x - 10)) 1 = [2] := by
    rw [jsSliceNeg, if_neg (by norm_num)]
    have hne2 : ts.data.map (fun dp => dp.x - 10) ≠ [] := by simpa using hne
    rw [List.length_map, ← List.length_map (f := fun dp => dp.x - 10),
      drop_length_sub_one_eq_getLast _ hne2, List.getLast?_map]
    rcases hg : ts.data.getLast? with _ | a
    · rw [List.getLast?_eq_none_iff] at hg
      exact absurd hg hne
    · rw [hg] at hlast
      have hx : a.x = 12 := hlast
      rw [show (Option.map (fun dp => dp.x - 10) (some a)).getD 0 = a.x - 10 from rfl]
      norm_num [hx]
  rw [hhist]
  norm_num [jsSliceNeg, armaForecastLoop, predictAR, predictMA,
    Finset.sum_range_succ]

/-- Witness for C5 over the concrete series `[8, 12]` (mean 10, last 12). -/
theorem C5_witness :
    (armaForecast
        (armaNew ⟨[⟨0, 8⟩, ⟨1, 12⟩]⟩
          { p := some 1, q := some 1, arCoefficients := some [0.7]
            maCoefficients := some [0.3], errors := some [0.2] })
        0 2).2 = [11.46, 11.022] :=
  C5_arma_two_step_forecast ⟨[⟨0, 8⟩, ⟨1, 12⟩]⟩ 0 (by simp)
    (by norm_num [mean, TimeSeries.xs]) (by simp [List.getLast?])

/-! ### C4: ARIMA(0,1,0) on the ramp -/

/-- C4: an `ARIMAForecaster` with `p = 0, d = 1, q = 0` over `[1..6]`
forecasts `[7, 8]` at every `t`: the differenced series is the constant
`[1,1,1,1,1]`, the inner ARMA(0,0) forecast is its mean `1`, and each step
is reconstructed by adding the previously reconstructed (or last raw)
value. -/
theorem C4_arima_ramp_forecast (t : ℚ) :
    (arimaForecast
        (arimaNew ⟨[⟨0, 1⟩, ⟨1, 2⟩, ⟨2, 3⟩, ⟨3, 4⟩, ⟨4, 5⟩, ⟨5, 6⟩]⟩
          { d := some 1 })
        t 2).map Prod.snd
      = .ok [7, 8] := by
  norm_num [Except.map, arimaNew, arimaInitializeOrUpdateArma, difference, diffLoop, diff1,
    jsSliceNeg, armaNew, armaInitialize, armaFixErrors,
    armaEstimateLocalCoefficients, estimateARMACoefficients,
    estimateARCoefficients, estimateMACoefficients, mean, TimeSeries.xs,
    arimaForecast, armaForecast, armaForecastLoop, arimaPadTail,
    arimaReconstructLoop, inverseDifferenceForecast, Except.bind,
    ARIMAParams.toArmaIn, List.getLast?, List.enum, List.enumFrom,
    List.foldl, Function.comp, bind, Except.instMonad, pure, Except.pure,
    List.getElem_cons_zero, List.getElem_cons_succ]

/-! ### C1: differencing round-trip -/

theorem combProd_eq_choose (n : ℕ) :
    ∀ j, j ≤ n → combProd n j = (n.choose j : ℚ) := by
  intro j
  induction j with
  | zero => intro _; simp [combProd]
  | succ j ih =>
    intro hj
    rw [combProd, List.range_succ, List.foldl_append, List.foldl_cons,
      List.foldl_nil]
    rw [show (List.range j).foldl
        (fun (res : ℚ) (i : ℕ) =>
          res * ((n : ℚ) - ((i : ℚ) + 1) + 1) / ((i : ℚ) + 1)) 1 = combProd n j
      from rfl]
    rw [ih (by omega)]
    have hcast : ((n : ℚ) - (j + 1) + 1) = ((n - j : ℕ) : ℚ) := by
      push_cast [Nat.cast_sub (by omega : j ≤ n)]
      ring
    rw [hcast]
    have hkey := Nat.choose_succ_right_eq n j
    have hc : ((n.choose (j + 1) * (j + 1) : ℕ) : ℚ) = ((n.choose j * (n - j) : ℕ) : ℚ) := by
      rw [hkey]
    push_cast at hc
    have hj1 : ((j : ℚ) + 1) ≠ 0 := by positivity
    field_simp
    linarith [hc]

theorem combinations_eq_choose (n k : ℕ) (hk : k ≤ n) :
    combinations n k = (n.choose k : ℚ) := by
  rw [combinations, if_neg (by omega)]
  by_cases h0 : k = 0 ∨ k = n
  · rw [if_pos h0]
    rcases h0 with h | h <;> subst h <;> simp
  · rw [if_neg h0]
    split_ifs with hsym
    · rw [combProd_eq_choose n (n - k) (by omega), Nat.choose_symm hk]
    · exact combProd_eq_choose n k hk

theorem diff1_length (l : List ℚ) : (diff1 l).length = l.length - 1 := by
  induction l with
  | nil => rfl
  | cons a rest ih =>
    cases rest with
    | nil => rfl
    | cons b t =>
      rw [diff1]
      simpa using ih

theorem diff1_getD (l : List ℚ) :
    ∀ j, j + 1 < l.length →
      (diff1 l).getD j 0 = l.getD (j + 1) 0 - l.getD j 0 := by
  induction l with
  | nil => intro j hj; simp at hj
  | cons a rest ih =>
    cases rest with
    | nil => intro j hj; simp at hj
    | cons b t =>
      intro j hj
      cases j with
      | zero => rfl
      | succ j =>
        simp only [diff1, List.getD_cons_succ]
        exact ih j (by simpa using hj)

theorem diffLoop_length (d : ℕ) :
    ∀ l : List ℚ, (diffLoop l d).length = l.length - d := by
  induction d with
  | zero => intro l; simp [diffLoop]
  | succ d ih =>
    intro l
    rw [diffLoop, ih (diff1 l), diff1_length]
    omega

theorem fwdDiff_iter_congr (f g : ℕ → ℚ) (n y : ℕ)
    (h : ∀ i, y ≤ i → i ≤ y + n → f i = g i) :
    (fwdDiff 1)^[n] f y = (fwdDiff 1)^[n] g y := by
  rw [fwdDiff_iter_eq_sum_shift, fwdDiff_iter_eq_sum_shift]
  refine Finset.sum_congr rfl fun k hk => ?_
  simp only [Finset.mem_range] at hk
  rw [h (y + k • 1) (by simp) (by simp; omega)]

theorem diffLoop_getD_fwdDiff (d : ℕ) :
    ∀ (l : List ℚ) (j : ℕ), j + d < l.length →
      (diffLoop l d).getD j 0 = (fwdDiff 1)^[d] (fun i : ℕ => l.getD i 0) j := by
  induction d with
  | zero => intro l j _; rfl
  | succ d ih =>
    intro l j hj
    rw [diffLoop, ih (diff1 l) j (by rw [diff1_length]; omega)]
    rw [fwdDiff_iter_congr (fun i : ℕ => (diff1 l).getD i 0)
      (fwdDiff 1 (fun i : ℕ => l.getD i 0)) d j
      (fun i hyi hin => by
        show (diff1 l).getD i 0 = fwdDiff 1 (fun i : ℕ => l.getD i 0) i
        rw [diff1_getD l i (by omega)]
        rfl)]
    rw [← Function.iterate_succ_apply]

theorem signAux_eq_neg_one_pow (k : ℕ) :
    (if (k + 1) % 2 = 1 then (1 : ℚ) else -1) = (-1 : ℚ) ^ k := by
  rcases Nat.even_or_odd k with he | ho
  · have h2 : k % 2 = 0 := Nat.even_iff.mp he
    rw [if_pos (by omega), he.neg_one_pow]
  · have h2 : k % 2 = 1 := Nat.odd_iff.mp ho
    rw [if_neg (by omega), ho.neg_one_pow]

theorem inverseDifferenceForecast_formula (F : ℚ) (tail : List ℚ) (d : ℕ)
    (hd : 1 ≤ d) (hlen : tail.length = d) :
    inverseDifferenceForecast F tail (d : ℤ)
      = .ok (F + ∑ k ∈ Finset.range d,
          (-1 : ℚ) ^ k * (d.choose (k + 1) : ℚ) * tail.getD (d - 1 - k) 0) := by
  rw [inverseDifferenceForecast, if_neg (by omega), if_neg (by omega),
    if_neg (by omega)]
  dsimp only
  split_ifs with h1 h2
  · have hd1 : d = 1 := by omega
    subst hd1
    rw [Finset.sum_range_succ]
    norm_num [hlen]
  · have hd2 : d = 2 := by omega
    subst hd2
    rw [Finset.sum_range_succ, Finset.sum_range_succ]
    norm_num [hlen]
    ring
  · congr 1
    have htn : ((d : ℤ)).toNat = d := by simp
    rw [htn]
    congr 1
    refine Finset.sum_congr rfl fun k hk => ?_
    simp only [Finset.mem_range] at hk
    rw [signAux_eq_neg_one_pow, combinations_eq_choose d (k + 1) (by omega), hlen]
    congr 2
    omega

/-- C1: for every `d ≥ 0` and series `X` longer than `d`, feeding the last
`d`-th difference `Y[n-d-1]` and the `d` preceding raw values
`[X[n-1-d], ..., X[n-2]]` to `inverseDifferenceForecast` reconstructs
`X[n-1]` exactly. -/
theorem C1_inverse_difference_roundtrip (X : List ℚ) (d : ℕ)
    (hd : d < X.length) :
    inverseDifferenceForecast ((difference X d).getD (X.length - d - 1) 0)
      ((X.dropLast).drop (X.length - 1 - d)) (d : ℤ)
      = .ok (X.getD (X.length - 1) 0) := by
  rcases Nat.eq_zero_or_pos d with h0 | hdpos
  · subst h0
    rw [difference]
    norm_num [inverseDifferenceForecast]
  · have hn1 : 1 ≤ X.length := by omega
    set n := X.length with hn
    set g : ℕ → ℚ := fun i => X.getD i 0 with hg
    have htail_len : ((X.dropLast).drop (n - 1 - d)).length = d := by
      rw [List.length_drop, List.length_dropLast]
      omega
    have htail_getD : ∀ i, i < d →
        ((X.dropLast).drop (n - 1 - d)).getD i 0 = g (n - 1 - d + i) := by
      intro i hi
      rw [List.getD_eq_getElem?_getD, List.getElem?_drop, List.dropLast_eq_take,
        List.getElem?_take, if_pos (by omega)]
      show X[n - 1 - d + i]?.getD 0 = X.getD (n - 1 - d + i) 0
      rw [List.getD_eq_getElem?_getD]
    rw [inverseDifferenceForecast_formula _ _ d hdpos htail_len]
    have hF : (difference X d).getD (n - d - 1) 0 = (fwdDiff 1)^[d] g (n - 1 - d) := by
      rw [difference, if_neg (by omega), if_neg (by omega)]
      have hidx : n - d - 1 = n - 1 - d := by omega
      rw [hidx, diffLoop_getD_fwdDiff d X (n - 1 - d) (by omega)]
    rw [hF]
    have hDelta : (fwdDiff 1)^[d] g (n - 1 - d)
        = ∑ k ∈ Finset.range (d + 1),
            (-1 : ℚ) ^ (d - k) * (d.choose k : ℚ) * g (n - 1 - d + k) := by
      rw [fwdDiff_iter_eq_sum_shift]
      refine Finset.sum_congr rfl fun k hk => ?_
      rw [zsmul_eq_mul]
      push_cast
      rw [smul_eq_mul, mul_one]
    rw [hDelta]
    have hS2 : ∑ k ∈ Finset.range d,
          (-1 : ℚ) ^ k * (d.choose (k + 1) : ℚ)
            * ((X.dropLast).drop (n - 1 - d)).getD (d - 1 - k) 0
        = ∑ k ∈ Finset.range d,
          (-1 : ℚ) ^ k * (d.choose (k + 1) : ℚ) * g (n - 1 - d + (d - 1 - k)) := by
      refine Finset.sum_congr rfl fun k hk => ?_
      simp only [Finset.mem_range] at hk
      rw [htail_getD (d - 1 - k) (by omega)]
    rw [hS2]
    have hsplit : ∑ k ∈ Finset.range (d + 1),
          (-1 : ℚ) ^ (d - k) * (d.choose k : ℚ) * g (n - 1 - d + k)
        = (∑ k ∈ Finset.range d,
            (-1 : ℚ) ^ (d - k) * (d.choose k : ℚ) * g (n - 1 - d + k))
          + g (n - 1) := by
      rw [Finset.sum_range_succ]
      congr 1
      have h1 : d - d = 0 := by omega
      have h2 : n - 1 - d + d = n - 1 := by omega
      rw [h1, h2, Nat.choose_self]
      norm_num
    rw [hsplit]
    have hcancel : (∑ k ∈ Finset.range d,
          (-1 : ℚ) ^ (d - k) * (d.choose k : ℚ) * g (n - 1 - d + k))
        + ∑ k ∈ Finset.range d,
            (-1 : ℚ) ^ k * (d.choose (k + 1) : ℚ) * g (n - 1 - d + (d - 1 - k))
        = 0 := by
      rw [← Finset.sum_range_reflect
        (fun k => (-1 : ℚ) ^ k * (d.choose (k + 1) : ℚ) * g (n - 1 - d + (d - 1 - k))) d]
      rw [← Finset.sum_add_distrib]
      refine Finset.sum_eq_zero fun k hk => ?_
      simp only [Finset.mem_range] at hk
      have e1 : d - 1 - (d - 1 - k) = k := by omega
      have e2 : d - 1 - k + 1 = d - k := by omega
      rw [e1, e2]
      have e3 : (d.choose (d - k) : ℚ) = (d.choose k : ℚ) := by
        rw [Nat.choose_symm (by omega)]
      rw [e3]
      have e4 : d - k = (d - 1 - k) + 1 := by omega
      rw [e4, pow_succ]
      ring
    congr 1
    linarith [hcancel]

/-- Witness for C1: the cubes-free sample `X = [1,4,9,16]`, `d = 2`
(second difference `[2,2]`, tail `[4,9]`, reconstruction `2 + 2·9 - 4 = 16`). -/
theorem C1_witness :
    inverseDifferenceForecast
        ((difference [1, 4, 9, 16] 2).getD (([1, 4, 9, 16] : List ℚ).length - 2 - 1) 0)
        (([1, 4, 9, 16] : List ℚ).dropLast.drop
          (([1, 4, 9, 16] : List ℚ).length - 1 - 2))
        ((2 : ℕ) : ℤ)
      = .ok (([1, 4, 9, 16] : List ℚ).getD (([1, 4, 9, 16] : List ℚ).length - 1) 0) :=
  C1_inverse_difference_roundtrip [1, 4, 9, 16] 2 (by norm_num)
